import Mathlib

/-!
Shallow embedding of `saleor/product/utils/__init__.py` (saleor product
utilities): `calculate_revenue_for_variant`, `delete_categories`,
`collect_categories_tree_products`, `get_products_ids_without_variants`.

Database rows (orders, order lines, products, product channel listings)
become Lean structures; the category tree becomes an inductive forest;
Django querysets become lists with eager evaluation; queryset union `|`
becomes list union with deduplication; the dict lookup that can raise
`KeyError` becomes an `Except`-returning function.
-/

/-- Modelled from the spec: the tax-money value type (`saleor/core/taxes.py`,
not under src/) — a money amount with a currency code. Amounts are integers
(minor units). -/
structure Money where
  amount : Int
  currency : String
deriving DecidableEq, Repr

/-- Modelled from the spec: `TaxedMoney` — a pair of net and gross money. -/
structure TaxedMoney where
  net : Money
  gross : Money
deriving DecidableEq, Repr

/-- Modelled from the spec: `zero_taxed_money(currency_code)` — zero taxed
money in the given currency. -/
def zero_taxed_money (currency_code : String) : TaxedMoney :=
  ⟨⟨0, currency_code⟩, ⟨0, currency_code⟩⟩

/-- Money addition: amounts add, the left currency is kept. -/
def Money.add (a b : Money) : Money :=
  ⟨a.amount + b.amount, a.currency⟩

/-- TaxedMoney addition, componentwise on net and gross. -/
def TaxedMoney.add (a b : TaxedMoney) : TaxedMoney :=
  ⟨a.net.add b.net, a.gross.add b.gross⟩

/-- An order row: primary key and creation timestamp (timestamps as `Int`). -/
structure Order where
  id : Nat
  created_at : Int
deriving DecidableEq, Repr

/-- An order-line row: the id of its order and its total price. -/
structure OrderLine where
  order_id : Nat
  total_price : TaxedMoney
deriving DecidableEq, Repr

/-- A product-variant row. -/
structure ProductVariant where
  id : Nat
  product_id : Nat
deriving DecidableEq, Repr

/-- The loop body of `calculate_revenue_for_variant`: walk the order lines,
look each line's order up in `orders_dict` (a `KeyError` becomes
`Except.error`), and add the line's total price when the order was created
at or after `start_date`. -/
def revenueLoop (start_date : Int) (orders_dict : List (Nat × Order)) :
    List OrderLine → TaxedMoney → Except String TaxedMoney
  | [], revenue => .ok revenue
  | order_line :: rest, revenue =>
    match List.lookup order_line.order_id orders_dict with
    | none => .error "KeyError"
    | some order =>
      if start_date ≤ order.created_at then
        revenueLoop start_date orders_dict rest (revenue.add order_line.total_price)
      else
        revenueLoop start_date orders_dict rest revenue

/-- Embedding of `calculate_revenue_for_variant`: starts from
`zero_taxed_money currency_code` and runs the loop over `order_lines`.
The `variant` argument is taken, as in the source, but never read. -/
def calculate_revenue_for_variant (variant : ProductVariant) (start_date : Int)
    (order_lines : List OrderLine) (orders_dict : List (Nat × Order))
    (currency_code : String) : Except String TaxedMoney :=
  revenueLoop start_date orders_dict order_lines (zero_taxed_money currency_code)

/-- The filter the loop implements: keep a line iff its order is found and
was created at or after `start_date`. -/
def linePred (start_date : Int) (orders_dict : List (Nat × Order))
    (order_line : OrderLine) : Bool :=
  match List.lookup order_line.order_id orders_dict with
  | some order => decide (start_date ≤ order.created_at)
  | none => false

/-- The spec's description of the result: zero taxed money in the given
currency plus the sum of `total_price` over exactly those order lines whose
order's `created_at` is at or after `start_date`. -/
def revenue_spec (start_date : Int) (order_lines : List OrderLine)
    (orders_dict : List (Nat × Order)) (currency_code : String) : TaxedMoney :=
  ((order_lines.filter (linePred start_date orders_dict)).map
    OrderLine.total_price).foldl TaxedMoney.add (zero_taxed_money currency_code)

lemma revenueLoop_ok (start_date : Int) (orders_dict : List (Nat × Order)) :
    ∀ (order_lines : List OrderLine) (acc : TaxedMoney),
      (∀ l ∈ order_lines, (List.lookup l.order_id orders_dict).isSome) →
      revenueLoop start_date orders_dict order_lines acc =
        .ok (((order_lines.filter (linePred start_date orders_dict)).map
          OrderLine.total_price).foldl TaxedMoney.add acc) := by
  intro order_lines
  induction order_lines with
  | nil => intro acc h; simp [revenueLoop]
  | cons l rest ih =>
    intro acc h
    have hl : (List.lookup l.order_id orders_dict).isSome := h l (by simp)
    obtain ⟨o, ho⟩ := Option.isSome_iff_exists.mp hl
    have hrest : ∀ x ∈ rest, (List.lookup x.order_id orders_dict).isSome := by
      intro x hx; exact h x (by simp [hx])
    by_cases hc : start_date ≤ o.created_at
    · simp [revenueLoop, ho, hc, ih _ hrest, linePred, List.filter_cons]
    · simp [revenueLoop, ho, hc, ih _ hrest, linePred, List.filter_cons]

lemma revenueLoop_error_iff (start_date : Int) (orders_dict : List (Nat × Order)) :
    ∀ (order_lines : List OrderLine) (acc : TaxedMoney),
      (revenueLoop start_date orders_dict order_lines acc = .error "KeyError" ↔
        ∃ l ∈ order_lines, List.lookup l.order_id orders_dict = none) := by
  intro order_lines
  induction order_lines with
  | nil => intro acc; simp [revenueLoop]
  | cons l rest ih =>
    intro acc
    cases ho : List.lookup l.order_id orders_dict with
    | none =>
      constructor
      · intro _; exact ⟨l, List.mem_cons_self _ _, ho⟩
      · intro _; simp only [revenueLoop, ho]
    | some o =>
      have hstep : revenueLoop start_date orders_dict (l :: rest) acc =
          revenueLoop start_date orders_dict rest
            (if start_date ≤ o.created_at then acc.add l.total_price else acc) := by
        simp only [revenueLoop, ho]
        by_cases hc : start_date ≤ o.created_at <;> simp [hc]
      rw [hstep, ih]
      constructor
      · rintro ⟨x, hx, hnone⟩; exact ⟨x, List.mem_cons_of_mem _ hx, hnone⟩
      · rintro ⟨x, hx, hnone⟩
        rcases List.mem_cons.mp hx with rfl | hx'
        · rw [ho] at hnone; cases hnone
        · exact ⟨x, hx', hnone⟩

/-- C1: when the orders dictionary maps every line's `order_id` to an order,
`calculate_revenue_for_variant` returns zero taxed money in the given
currency plus the sum of `total_price` over exactly those order lines whose
order's `created_at` is at or after `start_date`. -/
theorem calculate_revenue_for_variant_correct (variant : ProductVariant)
    (start_date : Int) (order_lines : List OrderLine)
    (orders_dict : List (Nat × Order)) (currency_code : String)
    (h : ∀ l ∈ order_lines, (List.lookup l.order_id orders_dict).isSome) :
    calculate_revenue_for_variant variant start_date order_lines orders_dict
        currency_code =
      .ok (revenue_spec start_date order_lines orders_dict currency_code) := by
  unfold calculate_revenue_for_variant revenue_spec
  exact revenueLoop_ok start_date orders_dict order_lines _ h

theorem calculate_revenue_for_variant_correct_witness :
    (∀ l ∈ ([⟨1, ⟨⟨5, "USD"⟩, ⟨7, "USD"⟩⟩⟩, ⟨2, ⟨⟨3, "USD"⟩, ⟨4, "USD"⟩⟩⟩] :
        List OrderLine),
      (List.lookup l.order_id [(1, (⟨1, 10⟩ : Order)), (2, ⟨2, 0⟩)]).isSome) ∧
    calculate_revenue_for_variant ⟨1, 1⟩ 5
        [⟨1, ⟨⟨5, "USD"⟩, ⟨7, "USD"⟩⟩⟩, ⟨2, ⟨⟨3, "USD"⟩, ⟨4, "USD"⟩⟩⟩]
        [(1, ⟨1, 10⟩), (2, ⟨2, 0⟩)] "USD" =
      .ok (revenue_spec 5 [⟨1, ⟨⟨5, "USD"⟩, ⟨7, "USD"⟩⟩⟩, ⟨2, ⟨⟨3, "USD"⟩, ⟨4, "USD"⟩⟩⟩]
        [(1, ⟨1, 10⟩), (2, ⟨2, 0⟩)] "USD") :=
  ⟨by decide, calculate_revenue_for_variant_correct ⟨1, 1⟩ 5 _ _ "USD" (by decide)⟩

/-- C9: the `variant` argument has no influence on the result of
`calculate_revenue_for_variant`. -/
theorem calculate_revenue_for_variant_ignores_variant
    (variant1 variant2 : ProductVariant) (start_date : Int)
    (order_lines : List OrderLine) (orders_dict : List (Nat × Order))
    (currency_code : String) :
    calculate_revenue_for_variant variant1 start_date order_lines orders_dict
        currency_code =
      calculate_revenue_for_variant variant2 start_date order_lines orders_dict
        currency_code := rfl

/-- C10: `calculate_revenue_for_variant` fails with a `KeyError` iff some
order line's `order_id` is not a key of `orders_dict`; when every line's
`order_id` is present it returns normally. -/
theorem calculate_revenue_for_variant_keyerror (variant : ProductVariant)
    (start_date : Int) (order_lines : List OrderLine)
    (orders_dict : List (Nat × Order)) (currency_code : String) :
    (calculate_revenue_for_variant variant start_date order_lines orders_dict
        currency_code = .error "KeyError" ↔
      ∃ l ∈ order_lines, List.lookup l.order_id orders_dict = none) ∧
    ((∀ l ∈ order_lines, (List.lookup l.order_id orders_dict).isSome) →
      ∃ r, calculate_revenue_for_variant variant start_date order_lines
        orders_dict currency_code = .ok r) := by
  constructor
  · exact revenueLoop_error_iff start_date orders_dict order_lines _
  · intro h
    exact ⟨_, revenueLoop_ok start_date orders_dict order_lines _ h⟩

theorem calculate_revenue_for_variant_keyerror_witness :
    (calculate_revenue_for_variant ⟨1, 1⟩ 0 [⟨9, ⟨⟨1, "USD"⟩, ⟨1, "USD"⟩⟩⟩]
        [(1, ⟨1, 3⟩)] "USD" = .error "KeyError" ↔
      ∃ l ∈ ([⟨9, ⟨⟨1, "USD"⟩, ⟨1, "USD"⟩⟩⟩] : List OrderLine),
        List.lookup l.order_id [(1, (⟨1, 3⟩ : Order))] = none) :=
  (calculate_revenue_for_variant_keyerror ⟨1, 1⟩ 0 _ _ "USD").1

/-- Modelled from the spec: a category row of the category tree
(`saleor/product/models.py`, not under src/). A category carries its id and
its child categories; the tree structure backs `get_descendants`. -/
inductive Category where
  | mk (id : Nat) (children : List Category)

def Category.id : Category → Nat
  | .mk i _ => i

def Category.children : Category → List Category
  | .mk _ cs => cs

mutual

/-- All nodes of a category's subtree, the category itself included. -/
def Category.allNodes : Category → List Category
  | .mk i cs => .mk i cs :: allNodesForest cs

/-- All nodes of a forest of categories. -/
def allNodesForest : List Category → List Category
  | [] => []
  | c :: rest => c.allNodes ++ allNodesForest rest

end

/-- Embedding of MPTT `category.get_descendants()`: every node strictly
below the category, at any depth. -/
def Category.get_descendants (c : Category) : List Category :=
  allNodesForest c.children

/-- A product row: primary key and (nullable) category foreign key. -/
structure Product where
  id : Nat
  category_id : Option Nat
deriving DecidableEq, Repr

/-- Embedding of the related manager `category.products.all()`: the products
of `db` whose `category_id` is the category's pk. -/
def categoryProducts (db : List Product) (c : Category) : List Product :=
  db.filter (fun p => decide (p.category_id = some c.id))

/-- Queryset union `a | b`: membership union, duplicates removed. -/
def qunion (a b : List Product) : List Product :=
  a ++ b.filter (fun p => decide (p ∉ a))

/-- Embedding of `collect_categories_tree_products`: start from the
category's own products and fold queryset union over its descendants'
products. -/
def collect_categories_tree_products (db : List Product) (category : Category) :
    List Product :=
  category.get_descendants.foldl
    (fun products descendant => qunion products (categoryProducts db descendant))
    (categoryProducts db category)

lemma mem_qunion (a b : List Product) (x : Product) :
    x ∈ qunion a b ↔ x ∈ a ∨ x ∈ b := by
  simp only [qunion, List.mem_append, List.mem_filter, decide_eq_true_eq]
  by_cases hx : x ∈ a <;> tauto

lemma mem_foldl_qunion {α : Type} (g : α → List Product) (x : Product) :
    ∀ (ds : List α) (init : List Product),
      x ∈ ds.foldl (fun acc d => qunion acc (g d)) init ↔
        x ∈ init ∨ ∃ d ∈ ds, x ∈ g d := by
  intro ds
  induction ds with
  | nil => intro init; simp
  | cons d rest ih =>
    intro init
    simp only [List.foldl_cons, ih, mem_qunion, List.mem_cons]
    constructor
    · rintro ((h | h) | ⟨d', hd', h⟩)
      · exact Or.inl h
      · exact Or.inr ⟨d, Or.inl rfl, h⟩
      · exact Or.inr ⟨d', Or.inr hd', h⟩
    · rintro (h | ⟨d', (rfl | hd'), h⟩)
      · exact Or.inl (Or.inl h)
      · exact Or.inl (Or.inr h)
      · exact Or.inr ⟨d', hd', h⟩

lemma mem_categoryProducts (db : List Product) (c : Category) (p : Product) :
    p ∈ categoryProducts db c ↔ p ∈ db ∧ p.category_id = some c.id := by
  simp [categoryProducts]

lemma mem_collect_tree (db : List Product) (category : Category) (p : Product) :
    p ∈ collect_categories_tree_products db category ↔
      p ∈ db ∧ (p.category_id = some category.id ∨
        ∃ d ∈ category.get_descendants, p.category_id = some d.id) := by
  unfold collect_categories_tree_products
  rw [mem_foldl_qunion, mem_categoryProducts]
  constructor
  · rintro (⟨hdb, hc⟩ | ⟨d, hd, hp⟩)
    · exact ⟨hdb, Or.inl hc⟩
    · rw [mem_categoryProducts] at hp
      exact ⟨hp.1, Or.inr ⟨d, hd, hp.2⟩⟩
  · rintro ⟨hdb, hc | ⟨d, hd, hp⟩⟩
    · exact Or.inl ⟨hdb, hc⟩
    · exact Or.inr ⟨d, hd, (mem_categoryProducts db d p).mpr ⟨hdb, hp⟩⟩

/-- C3: a product is in `collect_categories_tree_products db category` iff it
is a product of the database that belongs to the category itself or to some
category at any level of its subtree. -/
theorem collect_categories_tree_products_correct (db : List Product)
    (category : Category) (p : Product) :
    p ∈ collect_categories_tree_products db category ↔
      p ∈ db ∧ (p.category_id = some category.id ∨
        ∃ d ∈ category.get_descendants, p.category_id = some d.id) :=
  mem_collect_tree db category p

/-- Embedding of `get_products_ids_without_variants`: collect the input
products' ids, query the product table for rows whose id is among them and
that have no variant row, and return those rows' ids. -/
def get_products_ids_without_variants (db_products : List Product)
    (variants : List ProductVariant) (products_list : List Product) :
    List Nat :=
  let products_ids := products_list.map Product.id
  let products_ids_without_variants :=
    (db_products.filter (fun p =>
      decide (p.id ∈ products_ids) &&
        variants.all (fun v => decide (v.product_id ≠ p.id)))).map Product.id
  products_ids_without_variants

/-- C4: when every product of the input list is a row of the product table,
an id is in the result of `get_products_ids_without_variants` iff it is the
id of some input product that has no variant. -/
theorem get_products_ids_without_variants_correct (db_products : List Product)
    (variants : List ProductVariant) (products_list : List Product)
    (hsub : ∀ p ∈ products_list, p ∈ db_products) (i : Nat) :
    i ∈ get_products_ids_without_variants db_products variants products_list ↔
      ∃ p ∈ products_list, p.id = i ∧ ∀ v ∈ variants, v.product_id ≠ p.id := by
  simp only [get_products_ids_without_variants, List.mem_map, List.mem_filter,
    Bool.and_eq_true, List.all_eq_true, decide_eq_true_eq, ne_eq]
  constructor
  · rintro ⟨p, ⟨hdb, ⟨q, hq, hqp⟩, hnov⟩, rfl⟩
    refine ⟨q, hq, hqp, ?_⟩
    intro v hv
    rw [hqp]
    exact hnov v hv
  · rintro ⟨p, hp, rfl, hnov⟩
    exact ⟨p, ⟨hsub p hp, ⟨p, hp, rfl⟩, hnov⟩, rfl⟩

theorem get_products_ids_without_variants_correct_witness :
    (∀ p ∈ ([⟨1, some 4⟩, ⟨2, none⟩] : List Product),
        p ∈ ([⟨1, some 4⟩, ⟨2, none⟩, ⟨3, none⟩] : List Product)) ∧
    ((2 : Nat) ∈ get_products_ids_without_variants
        [⟨1, some 4⟩, ⟨2, none⟩, ⟨3, none⟩] [⟨10, 1⟩] [⟨1, some 4⟩, ⟨2, none⟩] ↔
      ∃ p ∈ ([⟨1, some 4⟩, ⟨2, none⟩] : List Product), p.id = 2 ∧
        ∀ v ∈ ([⟨10, 1⟩] : List ProductVariant), v.product_id ≠ p.id) :=
  ⟨by decide, get_products_ids_without_variants_correct
    [⟨1, some 4⟩, ⟨2, none⟩, ⟨3, none⟩] [⟨10, 1⟩] [⟨1, some 4⟩, ⟨2, none⟩]
    (by decide) 2⟩

/-- A product channel listing row: product and channel foreign keys, the
published flag and the publication timestamp. -/
structure ChannelListing where
  product_id : Nat
  channel_id : Nat
  is_published : Bool
  published_at : Option Int
deriving DecidableEq, Repr

/-- The database state `delete_categories` operates on: the category forest,
the product table and the product channel listing table. -/
structure DBState where
  categories : List Category
  products : List Product
  listings : List ChannelListing

/-- The observable side effects of `delete_categories`, in emission order:
the bulk listing update, the category row deletion, and the three kinds of
notification events. -/
inductive Effect where
  | updateListings (product_ids : List Nat)
  | deleteRows (category_ids : List Nat)
  | category_deleted (category_id : Nat)
  | product_updated (product_id : Nat)
  | promotionRulesDirty (channel_ids : List Nat)
deriving DecidableEq, Repr

/-- Modelled from the spec: the cascading deletion of category rows
(`Category.objects.filter(pk__in=categories_ids).delete()`; the category
model with its tree cascade lives in `saleor/product/models.py`, not under
src/). A matched node is removed together with its subtree. -/
def removeForest (ids : List Nat) : List Category → List Category
  | [] => []
  | .mk i cs :: rest =>
    if i ∈ ids then removeForest ids rest
    else .mk i (removeForest ids cs) :: removeForest ids rest

/-- The queryset `Category.objects.filter(pk__in=categories_ids)`: every
category row of the forest whose pk is among the given ids. -/
def matchedCategories (categories_ids : List Nat) (st : DBState) :
    List Category :=
  (allNodesForest st.categories).filter (fun c => decide (c.id ∈ categories_ids))

/-- The `products` accumulator of `delete_categories`: starting from the
empty queryset, union `collect_categories_tree_products` over the matched
categories. -/
def collectedProducts (categories_ids : List Nat) (st : DBState) :
    List Product :=
  (matchedCategories categories_ids st).foldl
    (fun products category =>
      qunion products (collect_categories_tree_products st.products category))
    []

/-- The queryset `ProductChannelListing.objects.filter(product__in=products)`. -/
def affectedListings (categories_ids : List Nat) (st : DBState) :
    List ChannelListing :=
  st.listings.filter (fun l =>
    decide (l.product_id ∈ (collectedProducts categories_ids st).map Product.id))

/-- The `set(...values_list("channel_id", flat=True))` of the affected
listings, as a deduplicated list. -/
def affectedChannelIds (categories_ids : List Nat) (st : DBState) : List Nat :=
  ((affectedListings categories_ids st).map ChannelListing.channel_id).dedup

/-- The bulk update `.update(is_published=False, published_at=None)` over
the listings of the given products. -/
def unpublishAll (product_ids : List Nat) (listings : List ChannelListing) :
    List ChannelListing :=
  listings.map (fun l =>
    if l.product_id ∈ product_ids then
      { l with is_published := false, published_at := none }
    else l)

/-- Embedding of `delete_categories`: returns the new database state and the
ordered trace of side effects (listing update, row deletion, then the
notification events). Querysets are evaluated eagerly. -/
def delete_categories (categories_ids : List Nat) (st : DBState) :
    DBState × List Effect :=
  let category_instances := matchedCategories categories_ids st
  let products := collectedProducts categories_ids st
  let listings := unpublishAll (products.map Product.id) st.listings
  let categories := removeForest categories_ids st.categories
  let channel_ids := affectedChannelIds categories_ids st
  (⟨categories, st.products, listings⟩,
   Effect.updateListings (products.map Product.id) ::
   Effect.deleteRows categories_ids ::
   (category_instances.map (fun c => Effect.category_deleted c.id) ++
    products.map (fun p => Effect.product_updated p.id) ++
    [Effect.promotionRulesDirty channel_ids]))

lemma delete_categories_state (categories_ids : List Nat) (st : DBState) :
    (delete_categories categories_ids st).1 =
      ⟨removeForest categories_ids st.categories, st.products,
       unpublishAll ((collectedProducts categories_ids st).map Product.id)
         st.listings⟩ := rfl

lemma delete_categories_trace (categories_ids : List Nat) (st : DBState) :
    (delete_categories categories_ids st).2 =
      Effect.updateListings ((collectedProducts categories_ids st).map Product.id) ::
      Effect.deleteRows categories_ids ::
      ((matchedCategories categories_ids st).map
          (fun c => Effect.category_deleted c.id) ++
        (collectedProducts categories_ids st).map
          (fun p => Effect.product_updated p.id) ++
        [Effect.promotionRulesDirty (affectedChannelIds categories_ids st)]) := rfl

lemma mem_collectedProducts (categories_ids : List Nat) (st : DBState)
    (p : Product) :
    p ∈ collectedProducts categories_ids st ↔
      ∃ c ∈ matchedCategories categories_ids st, p ∈ st.products ∧
        (p.category_id = some c.id ∨
          ∃ d ∈ c.get_descendants, p.category_id = some d.id) := by
  unfold collectedProducts
  rw [mem_foldl_qunion]
  simp only [List.not_mem_nil, false_or]
  constructor
  · rintro ⟨c, hc, hp⟩
    rw [mem_collect_tree] at hp
    exact ⟨c, hc, hp.1, hp.2⟩
  · rintro ⟨c, hc, hdb, hcase⟩
    exact ⟨c, hc, (mem_collect_tree st.products c p).mpr ⟨hdb, hcase⟩⟩

lemma not_mem_ids_of_mem_removeForest (ids : List Nat) :
    ∀ (f : List Category) (c : Category),
      c ∈ allNodesForest (removeForest ids f) → c.id ∉ ids
  | [], c => by
    intro h
    simp [removeForest, allNodesForest] at h
  | .mk i cs :: rest, c => by
    intro h hin
    by_cases hi : i ∈ ids
    · rw [show removeForest ids (.mk i cs :: rest) = removeForest ids rest from
        by simp [removeForest, hi]] at h
      exact not_mem_ids_of_mem_removeForest ids rest c h hin
    · rw [show removeForest ids (.mk i cs :: rest) =
          .mk i (removeForest ids cs) :: removeForest ids rest from
        by simp [removeForest, hi]] at h
      rw [allNodesForest] at h
      rcases List.mem_append.mp h with h1 | h2
      · rw [Category.allNodes] at h1
        rcases List.mem_cons.mp h1 with rfl | h1'
        · exact hi hin
        · exact not_mem_ids_of_mem_removeForest ids cs c h1' hin
      · exact not_mem_ids_of_mem_removeForest ids rest c h2 hin

/-- C5: after `delete_categories`, every channel listing whose product
belongs to one of the given categories or to any of their descendants is
unpublished with a cleared publication date, and every given category row is
gone from the category forest. -/
theorem delete_categories_postcondition (categories_ids : List Nat)
    (st : DBState) :
    (∀ l ∈ (delete_categories categories_ids st).1.listings,
      (∃ p ∈ st.products, p.id = l.product_id ∧
        ∃ c ∈ matchedCategories categories_ids st,
          (p.category_id = some c.id ∨
            ∃ d ∈ c.get_descendants, p.category_id = some d.id)) →
      l.is_published = false ∧ l.published_at = none) ∧
    (∀ i ∈ categories_ids,
      ∀ c ∈ allNodesForest (delete_categories categories_ids st).1.categories,
        c.id ≠ i) := by
  constructor
  · intro l hl hcond
    rw [delete_categories_state] at hl
    unfold unpublishAll at hl
    obtain ⟨l0, hl0, rfl⟩ := List.mem_map.mp hl
    by_cases hmem :
        l0.product_id ∈ (collectedProducts categories_ids st).map Product.id
    · rw [if_pos hmem]
      exact ⟨rfl, rfl⟩
    · exfalso
      obtain ⟨p, hp, hpid, c, hc, hcase⟩ := hcond
      rw [if_neg hmem] at hpid
      have hpcol : p ∈ collectedProducts categories_ids st :=
        (mem_collectedProducts categories_ids st p).mpr ⟨c, hc, hp, hcase⟩
      exact hmem (List.mem_map.mpr ⟨p, hpcol, hpid⟩)
  · intro i hi c hc
    rw [delete_categories_state] at hc
    intro hci
    exact not_mem_ids_of_mem_removeForest categories_ids st.categories c hc
      (hci ▸ hi)

/-- Is the effect the bulk listing unpublication? -/
def Effect.isUnpublish : Effect → Bool
  | .updateListings _ => true
  | _ => false

/-- Is the effect the category row deletion? -/
def Effect.isDeleteRows : Effect → Bool
  | .deleteRows _ => true
  | _ => false

/-- Is the effect one of the emitted notification events? -/
def Effect.isNotification : Effect → Bool
  | .category_deleted _ => true
  | .product_updated _ => true
  | .promotionRulesDirty _ => true
  | _ => false

def Effect.isCategoryDeleted : Effect → Bool
  | .category_deleted _ => true
  | _ => false

def Effect.isProductUpdated : Effect → Bool
  | .product_updated _ => true
  | _ => false

def Effect.isPromotionDirty : Effect → Bool
  | .promotionRulesDirty _ => true
  | _ => false

lemma trace_get_zero (categories_ids : List Nat) (st : DBState) :
    (delete_categories categories_ids st).2.get? 0 =
      some (Effect.updateListings
        ((collectedProducts categories_ids st).map Product.id)) := rfl

lemma trace_get_one (categories_ids : List Nat) (st : DBState) :
    (delete_categories categories_ids st).2.get? 1 =
      some (Effect.deleteRows categories_ids) := rfl

lemma trace_get_succ_succ (categories_ids : List Nat) (st : DBState) (n : Nat) :
    (delete_categories categories_ids st).2.get? (n + 2) =
      ((matchedCategories categories_ids st).map
          (fun c => Effect.category_deleted c.id) ++
        (collectedProducts categories_ids st).map
          (fun p => Effect.product_updated p.id) ++
        [Effect.promotionRulesDirty (affectedChannelIds categories_ids st)]).get?
        n := rfl

lemma notification_of_tail (categories_ids : List Nat) (st : DBState)
    (n : Nat) (e : Effect)
    (h : (delete_categories categories_ids st).2.get? (n + 2) = some e) :
    e.isNotification = true := by
  rw [trace_get_succ_succ] at h
  have hmem := List.get?_mem h
  rcases List.mem_append.mp hmem with h1 | h2
  · rcases List.mem_append.mp h1 with ha | hb
    · obtain ⟨c, _, rfl⟩ := List.mem_map.mp ha; rfl
    · obtain ⟨p, _, rfl⟩ := List.mem_map.mp hb; rfl
  · rw [List.mem_singleton.mp h2]; rfl

lemma notification_not_db_effect (e : Effect) (h : e.isNotification = true) :
    e.isUnpublish = false ∧ e.isDeleteRows = false := by
  cases e <;> simp_all [Effect.isNotification, Effect.isUnpublish,
    Effect.isDeleteRows]

lemma unpublish_pos (categories_ids : List Nat) (st : DBState) (i : Nat)
    (e : Effect) (h : (delete_categories categories_ids st).2.get? i = some e)
    (hu : e.isUnpublish = true) : i = 0 := by
  match i with
  | 0 => rfl
  | 1 =>
    rw [trace_get_one] at h
    rw [← Option.some.inj h] at hu
    cases hu
  | n + 2 =>
    have := (notification_not_db_effect e
      (notification_of_tail categories_ids st n e h)).1
    rw [hu] at this
    cases this

lemma deleteRows_pos (categories_ids : List Nat) (st : DBState) (i : Nat)
    (e : Effect) (h : (delete_categories categories_ids st).2.get? i = some e)
    (hd : e.isDeleteRows = true) : i = 1 := by
  match i with
  | 0 =>
    rw [trace_get_zero] at h
    rw [← Option.some.inj h] at hd
    cases hd
  | 1 => rfl
  | n + 2 =>
    have := (notification_not_db_effect e
      (notification_of_tail categories_ids st n e h)).2
    rw [hd] at this
    cases this

lemma notification_pos (categories_ids : List Nat) (st : DBState) (j : Nat)
    (e : Effect) (h : (delete_categories categories_ids st).2.get? j = some e)
    (hn : e.isNotification = true) : 2 ≤ j := by
  match j with
  | 0 =>
    rw [trace_get_zero] at h
    rw [← Option.some.inj h] at hn
    cases hn
  | 1 =>
    rw [trace_get_one] at h
    rw [← Option.some.inj h] at hn
    cases hn
  | n + 2 => omega

/-- C2: in the effect trace of `delete_categories`, the listing
unpublication strictly precedes the category row deletion, and the row
deletion strictly precedes every notification event: listings are never
unpublished after the delete and no event is emitted before the delete. -/
theorem delete_categories_effect_order (categories_ids : List Nat)
    (st : DBState) (i j : Nat) (e e' : Effect) :
    ((delete_categories categories_ids st).2.get? i = some e →
      e.isUnpublish = true →
      (delete_categories categories_ids st).2.get? j = some e' →
      e'.isDeleteRows = true → i < j) ∧
    ((delete_categories categories_ids st).2.get? i = some e →
      e.isDeleteRows = true →
      (delete_categories categories_ids st).2.get? j = some e' →
      e'.isNotification = true → i < j) := by
  constructor
  · intro hi hu hj hd
    rw [unpublish_pos categories_ids st i e hi hu,
      deleteRows_pos categories_ids st j e' hj hd]
    exact Nat.zero_lt_one
  · intro hi hd hj hn
    have h1 : i = 1 := deleteRows_pos categories_ids st i e hi hd
    have h2 : 2 ≤ j := notification_pos categories_ids st j e' hj hn
    omega

lemma filter_map_all {α : Type} (p : Effect → Bool) (g : α → Effect)
    (l : List α) (h : ∀ x, p (g x) = true) :
    (l.map g).filter p = l.map g :=
  List.filter_eq_self.mpr (fun a ha => by
    obtain ⟨x, _, rfl⟩ := List.mem_map.mp ha; exact h x)

lemma filter_map_none {α : Type} (p : Effect → Bool) (g : α → Effect)
    (l : List α) (h : ∀ x, p (g x) = false) :
    (l.map g).filter p = [] :=
  List.filter_eq_nil_iff.mpr (fun a ha => by
    obtain ⟨x, _, rfl⟩ := List.mem_map.mp ha; simp [h x])

/-- C6: the trace of `delete_categories` holds exactly one
`category_deleted` event per matched category, exactly one `product_updated`
event per collected product, and exactly one promotion-rules-dirty event,
whose payload is the set of channel ids of the affected channel listings. -/
theorem delete_categories_events (categories_ids : List Nat) (st : DBState) :
    ((delete_categories categories_ids st).2.filter Effect.isCategoryDeleted =
      (matchedCategories categories_ids st).map
        (fun c => Effect.category_deleted c.id)) ∧
    ((delete_categories categories_ids st).2.filter Effect.isProductUpdated =
      (collectedProducts categories_ids st).map
        (fun p => Effect.product_updated p.id)) ∧
    ((delete_categories categories_ids st).2.filter Effect.isPromotionDirty =
      [Effect.promotionRulesDirty (affectedChannelIds categories_ids st)]) ∧
    (∀ ch, ch ∈ affectedChannelIds categories_ids st ↔
      ∃ l ∈ affectedListings categories_ids st, l.channel_id = ch) := by
  refine ⟨?_, ?_, ?_, ?_⟩
  · rw [delete_categories_trace]
    simp only [List.filter_cons, List.filter_append]
    rw [filter_map_all Effect.isCategoryDeleted
        (fun c => Effect.category_deleted c.id)
        (matchedCategories categories_ids st) (fun c => rfl),
      filter_map_none Effect.isCategoryDeleted
        (fun p => Effect.product_updated p.id)
        (collectedProducts categories_ids st) (fun p => rfl)]
    simp [Effect.isCategoryDeleted]
  · rw [delete_categories_trace]
    simp only [List.filter_cons, List.filter_append]
    rw [filter_map_none Effect.isProductUpdated
        (fun c => Effect.category_deleted c.id)
        (matchedCategories categories_ids st) (fun c => rfl),
      filter_map_all Effect.isProductUpdated
        (fun p => Effect.product_updated p.id)
        (collectedProducts categories_ids st) (fun p => rfl)]
    simp [Effect.isProductUpdated]
  · rw [delete_categories_trace]
    simp only [List.filter_cons, List.filter_append]
    rw [filter_map_none Effect.isPromotionDirty
        (fun c => Effect.category_deleted c.id)
        (matchedCategories categories_ids st) (fun c => rfl),
      filter_map_none Effect.isPromotionDirty
        (fun p => Effect.product_updated p.id)
        (collectedProducts categories_ids st) (fun p => rfl)]
    simp [Effect.isPromotionDirty]
  · intro ch
    simp [affectedChannelIds, List.mem_dedup, List.mem_map]

/-- Modelled from the spec: a fallible run of the `delete_categories` body.
The oracle `fail` says whether the database step numbered `k` (0: the
listing update, 1: the row deletion) raises; a raising step aborts the body
with an error before any later step runs. -/
def delete_categories_fallible (fail : Nat → Bool) (categories_ids : List Nat)
    (st : DBState) : Except String (DBState × List Effect) :=
  let category_instances := matchedCategories categories_ids st
  let products := collectedProducts categories_ids st
  if fail 0 then .error "listing update failed" else
  let st1 : DBState := ⟨st.categories, st.products,
    unpublishAll (products.map Product.id) st.listings⟩
  if fail 1 then .error "category delete failed" else
  let st2 : DBState := ⟨removeForest categories_ids st1.categories,
    st1.products, st1.listings⟩
  .ok (st2,
    Effect.updateListings (products.map Product.id) ::
    Effect.deleteRows categories_ids ::
    (category_instances.map (fun c => Effect.category_deleted c.id) ++
     products.map (fun p => Effect.product_updated p.id) ++
     [Effect.promotionRulesDirty (affectedChannelIds categories_ids st)]))

/-- Modelled from the spec: `traced_atomic_transaction`
(`saleor/core/tracing.py`, not under src/) wraps the function body in a
database transaction; when the body raises, every database change rolls
back and no event is emitted. -/
def traced_atomic_transaction
    (body : DBState → Except String (DBState × List Effect)) (st : DBState) :
    DBState × List Effect :=
  match body st with
  | .ok r => r
  | .error _ => (st, [])

/-- The decorated `delete_categories`: its body run inside the transaction
wrapper, with the failure oracle `fail`. -/
def delete_categories_atomic (fail : Nat → Bool) (categories_ids : List Nat)
    (st : DBState) : DBState × List Effect :=
  traced_atomic_transaction (delete_categories_fallible fail categories_ids) st

/-- C7: if any step of the body fails, the transaction leaves the database
state unchanged and emits no event; when no step fails, the decorated
function behaves exactly like `delete_categories`. -/
theorem delete_categories_atomic_rollback (fail : Nat → Bool)
    (categories_ids : List Nat) (st : DBState) :
    ((∃ e, delete_categories_fallible fail categories_ids st = .error e) →
      delete_categories_atomic fail categories_ids st = (st, [])) ∧
    (fail 0 = false → fail 1 = false →
      delete_categories_atomic fail categories_ids st =
        delete_categories categories_ids st) := by
  constructor
  · rintro ⟨e, he⟩
    simp [delete_categories_atomic, traced_atomic_transaction, he]
  · intro h0 h1
    simp [delete_categories_atomic, traced_atomic_transaction,
      delete_categories_fallible, h0, h1, delete_categories]

/-- C8: each of the four embedded functions terminates on every finite
input and yields a result. -/
theorem all_functions_terminate :
    (∀ (variant : ProductVariant) (start_date : Int)
      (order_lines : List OrderLine) (orders_dict : List (Nat × Order))
      (currency_code : String),
      ∃ r, calculate_revenue_for_variant variant start_date order_lines
        orders_dict currency_code = r) ∧
    (∀ (db : List Product) (category : Category),
      ∃ r, collect_categories_tree_products db category = r) ∧
    (∀ (categories_ids : List Nat) (st : DBState),
      ∃ r, delete_categories categories_ids st = r) ∧
    (∀ (db_products : List Product) (variants : List ProductVariant)
      (products_list : List Product),
      ∃ r, get_products_ids_without_variants db_products variants
        products_list = r) :=
  ⟨fun _ _ _ _ _ => ⟨_, rfl⟩, fun _ _ => ⟨_, rfl⟩, fun _ _ => ⟨_, rfl⟩,
   fun _ _ _ => ⟨_, rfl⟩⟩

/-- A small concrete database: category 1 with child category 2, product 10
in category 2, product 11 in category 3, and one published listing per
product. -/
def dbExample : DBState :=
  ⟨[Category.mk 1 [Category.mk 2 []]],
   [⟨10, some 2⟩, ⟨11, some 3⟩],
   [⟨10, 7, true, some 5⟩, ⟨11, 8, true, some 5⟩]⟩

theorem delete_categories_effect_order_witness :
    ((delete_categories [1] dbExample).2.get? 0 =
      some (Effect.updateListings [10])) ∧
    (Effect.updateListings [10]).isUnpublish = true ∧
    ((delete_categories [1] dbExample).2.get? 1 =
      some (Effect.deleteRows [1])) ∧
    (Effect.deleteRows [1]).isDeleteRows = true ∧
    (0 : Nat) < 1 :=
  ⟨by decide, rfl, by decide, rfl,
   (delete_categories_effect_order [1] dbExample 0 1
       (Effect.updateListings [10]) (Effect.deleteRows [1])).1
     (by decide) rfl (by decide) rfl⟩

theorem collect_categories_tree_products_correct_witness :
    (⟨10, some 2⟩ : Product) ∈ collect_categories_tree_products
        [⟨10, some 2⟩, ⟨11, some 3⟩] (Category.mk 1 [Category.mk 2 []]) ↔
      (⟨10, some 2⟩ : Product) ∈ ([⟨10, some 2⟩, ⟨11, some 3⟩] : List Product) ∧
        ((⟨10, some 2⟩ : Product).category_id =
            some (Category.mk 1 [Category.mk 2 []]).id ∨
          ∃ d ∈ (Category.mk 1 [Category.mk 2 []]).get_descendants,
            (⟨10, some 2⟩ : Product).category_id = some d.id) :=
  collect_categories_tree_products_correct [⟨10, some 2⟩, ⟨11, some 3⟩]
    (Category.mk 1 [Category.mk 2 []]) ⟨10, some 2⟩

theorem delete_categories_postcondition_witness :
    ((⟨10, 7, false, none⟩ : ChannelListing) ∈
      (delete_categories [1] dbExample).1.listings) ∧
    ((⟨10, 7, false, none⟩ : ChannelListing).is_published = false ∧
      (⟨10, 7, false, none⟩ : ChannelListing).published_at = none) :=
  ⟨by decide, (delete_categories_postcondition [1] dbExample).1
    ⟨10, 7, false, none⟩ (by decide) (by decide)⟩

theorem delete_categories_events_witness :
    (delete_categories [1] dbExample).2.filter Effect.isCategoryDeleted =
      (matchedCategories [1] dbExample).map
        (fun c => Effect.category_deleted c.id) :=
  (delete_categories_events [1] dbExample).1

theorem delete_categories_atomic_rollback_witness :
    (∃ e, delete_categories_fallible (fun _ => true) [1] dbExample =
      .error e) ∧
    delete_categories_atomic (fun _ => true) [1] dbExample = (dbExample, []) :=
  ⟨⟨"listing update failed", rfl⟩,
   (delete_categories_atomic_rollback (fun _ => true) [1] dbExample).1
     ⟨"listing update failed", rfl⟩⟩

theorem all_functions_terminate_witness :
    ∃ r, delete_categories [1] dbExample = r :=
  all_functions_terminate.2.2.1 [1] dbExample

theorem calculate_revenue_for_variant_ignores_variant_witness :
    calculate_revenue_for_variant ⟨1, 1⟩ 0 [] [] "USD" =
      calculate_revenue_for_variant ⟨2, 5⟩ 0 [] [] "USD" :=
  calculate_revenue_for_variant_ignores_variant ⟨1, 1⟩ ⟨2, 5⟩ 0 [] [] "USD"
